import Mathlib

/-!
Verification development for the DICOM-to-NIfTI curation script
(src/dicom_to_nifti_json.py).  The script's pure core — private-tag
filtering, metadata serialization to a DICOM-JSON-style document, filename
sanitization — is embedded shallowly below, together with the per-series
error-containment control flow, and the stated properties of the design
document are proved or refuted against the embedding.

Modelling conventions:
* A decoded data element is a triple of tag (a natural number), element
  name, and value; a decoded dataset is the ordered list of its elements,
  mirroring the ordered dict comprehension built from iterating a pydicom
  dataset.
* Python's loosely-typed element values are modelled by the closed variant
  PyVal; the runtime type tests of serialize_metadata become a match on
  that variant, each arm encoding the branch that kind of value actually
  takes.  In particular a pydicom Sequence is a MultiValue (Sequence
  subclasses MultiValue), so a Sequence value satisfies the first
  isinstance test and is rendered by the MultiValue branch; the dedicated
  Sequence branch below it is unreachable.
* The tag-to-VR lookup (pydicom.datadict.dictionary_VR) is an external
  fixed partial dictionary, passed in as a function vrOf returning an
  optional VR; a tag absent from the dictionary makes the lookup raise
  KeyError, modelled as the error case of the serializer.
* Fallible external steps (pydicom.dcmread, file writes, the SimpleITK
  conversion) are modelled as Except values supplied at the boundary.
-/

namespace NiftiCuration

/-- JSON-compatible documents produced by the serializer.  Integer and
floating-point numbers are distinct JSON number forms (as json.dump keeps
them distinct); objects are ordered key/value lists, matching
insertion-ordered Python dicts. -/
inductive Json : Type where
  | str : String → Json
  | intV : Int → Json
  | num : Rat → Json
  | arr : List Json → Json
  | obj : List (String × Json) → Json

/-- A decoded element value as handed over by pydicom: a string, int or
float scalar, raw bytes, a MultiValue of values, a Sequence of datasets
(each item a list of tag/name/value triples), or a value of any other
type, carried by the text its Python str() would render. -/
inductive PyVal : Type where
  | vStr : String → PyVal
  | vInt : Int → PyVal
  | vFloat : Rat → PyVal
  | vBytes : List Nat → PyVal
  | vMulti : List PyVal → PyVal
  | vSeq : List (List (Nat × String × PyVal)) → PyVal
  | vOther : String → PyVal

/-- One decoded data element: tag, name, value. -/
abbrev DataElem : Type := Nat × String × PyVal

/-- One decoded dataset (one slice), in element order. -/
abbrev Dataset : Type := List DataElem

/-- pydicom Tag.is_private: the group number (the high 16 bits of the
32-bit tag) is odd. -/
def isPrivate (t : Nat) : Bool := (t / 65536) % 2 == 1

/-- The private-tag filter of extract_metadata line 64: keep exactly the
elements whose tag is not private. -/
def filterPrivate (d : Dataset) : Dataset := d.filter (fun e => !(isPrivate e.1))

/-- The tags bound by a dataset, in element order. -/
def keys (d : Dataset) : List Nat := d.map (fun e => e.1)

/-- Uppercase hexadecimal digit, as used by Python format(key, "08X"). -/
def hexDigit (n : Nat) : Char := if n < 10 then Char.ofNat (48 + n) else Char.ofNat (55 + n)

/-- Hexadecimal digits of n, most significant first, accumulated; the
first argument is fuel (any fuel at least the digit count is enough). -/
def hexCharsAux : Nat → Nat → List Char → List Char
  | 0, _, acc => acc
  | _ + 1, 0, acc => acc
  | fuel + 1, n + 1, acc => hexCharsAux fuel ((n + 1) / 16) (hexDigit ((n + 1) % 16) :: acc)

/-- format(key, "08X") of line 76: uppercase hexadecimal, left-padded with
zeros to a minimum width of 8. -/
def tagHex (t : Nat) : String :=
  let ds := if t = 0 then ['0'] else hexCharsAux t t []
  String.mk (List.replicate (8 - ds.length) '0' ++ ds)

/-- Model of Python str() on a decoded value, as applied to the elements
of a MultiValue (line 82) and by the generic fallback (line 90).  Scalar
renderings follow Python; the renderings of composite values are
abstracted to fixed textual forms. -/
def pyStr : PyVal → String
  | .vStr s => s
  | .vInt n => toString n
  | .vFloat q => toString q
  | .vBytes bs => String.intercalate " " (bs.map toString)
  | .vMulti _ => "<multivalue>"
  | .vSeq _ => "<sequence>"
  | .vOther s => s

/-- Model of Python str() on one item dataset of a Sequence, as rendered
when the MultiValue branch stringifies the Sequence items.  pydicom
prints one line per element (tag, name, VR and value); this model
abbreviates that layout to tag, name and value per line — an opaque
textual dump none of the theorems below inspect. -/
def pyStrDataset (d : List (Nat × String × PyVal)) : String :=
  String.intercalate "\n" (d.map (fun e => tagHex e.1 ++ " " ++ e.2.1 ++ ": " ++ pyStr e.2.2))

/-- A UTF-8 continuation byte. -/
def isCont (b : Nat) : Bool := 128 ≤ b && b ≤ 191

/-- Valid first-continuation ranges of a three-byte UTF-8 sequence
(excluding overlong forms and surrogates). -/
def cont1ok3 (b b2 : Nat) : Bool :=
  if b = 224 then 160 ≤ b2 && b2 ≤ 191
  else if b = 237 then 128 ≤ b2 && b2 ≤ 159
  else isCont b2

/-- Valid first-continuation ranges of a four-byte UTF-8 sequence
(excluding overlong forms and codepoints above 0x10FFFF). -/
def cont1ok4 (b b2 : Nat) : Bool :=
  if b = 240 then 144 ≤ b2 && b2 ≤ 191
  else if b = 244 then 128 ≤ b2 && b2 ≤ 143
  else isCont b2

/-- What an invalid maximal subpart decodes to: the replacement character
U+FFFD under the replace error handler, nothing under ignore. -/
def badMark (replace : Bool) : List Char := if replace then [Char.ofNat 65533] else []

/-- UTF-8 decoding with a lossy error handler, as bytes.decode does for
errors equal to ignore (replace = false) or replace (replace = true):
each maximal invalid subpart is dropped resp. becomes one U+FFFD, and
decoding always succeeds. -/
def utf8Decode (replace : Bool) : List Nat → List Char
  | [] => []
  | b :: rest =>
    if b ≤ 127 then Char.ofNat b :: utf8Decode replace rest
    else if 194 ≤ b && b ≤ 223 then
      match rest with
      | [] => badMark replace
      | b2 :: rest2 =>
        if isCont b2 then Char.ofNat ((b - 192) * 64 + (b2 - 128)) :: utf8Decode replace rest2
        else badMark replace ++ utf8Decode replace (b2 :: rest2)
    else if 224 ≤ b && b ≤ 239 then
      match rest with
      | [] => badMark replace
      | b2 :: rest2 =>
        if cont1ok3 b b2 then
          match rest2 with
          | [] => badMark replace
          | b3 :: rest3 =>
            if isCont b3 then
              Char.ofNat ((b - 224) * 4096 + (b2 - 128) * 64 + (b3 - 128)) :: utf8Decode replace rest3
            else badMark replace ++ utf8Decode replace (b3 :: rest3)
        else badMark replace ++ utf8Decode replace (b2 :: rest2)
    else if 240 ≤ b && b ≤ 244 then
      match rest with
      | [] => badMark replace
      | b2 :: rest2 =>
        if cont1ok4 b b2 then
          match rest2 with
          | [] => badMark replace
          | b3 :: rest3 =>
            if isCont b3 then
              match rest3 with
              | [] => badMark replace
              | b4 :: rest4 =>
                if isCont b4 then
                  Char.ofNat ((b - 240) * 262144 + (b2 - 128) * 4096 + (b3 - 128) * 64 + (b4 - 128))
                    :: utf8Decode replace rest4
                else badMark replace ++ utf8Decode replace (b4 :: rest4)
            else badMark replace ++ utf8Decode replace (b3 :: rest3)
        else badMark replace ++ utf8Decode replace (b2 :: rest2)
    else badMark replace ++ utf8Decode replace rest

/-- val.decode(errors set to ignore) of line 86: lossy UTF-8 decoding that
drops every invalid subpart and never fails. -/
def decodeIgnore (bs : List Nat) : String := String.mk (utf8Decode false bs)

/-- Modelled from the spec: the design document (section 4.2) prescribes a
best-effort decode in which undecodable byte sequences are replaced by a
substitute marker; this decode (bytes.decode with errors set to replace)
is not what the source calls and is defined here only for comparison. -/
def decodeReplace (bs : List Nat) : String := String.mk (utf8Decode true bs)

/-- The value-rendering branch ladder of serialize_metadata (lines
81-90), one arm per payload kind encoding the branch that kind actually
takes: a MultiValue renders as the list of str() of its elements; a
Sequence also satisfies the line-81 isinstance test (pydicom Sequence
subclasses MultiValue), so it renders the same way — the list of str()
texts of its item datasets — and the recursive Sequence branch of lines
83-84 is unreachable dead code; bytes take the lossy decode; float, int
and str pass through as-is; any other type renders through the str()
fallback of line 90. -/
def serializeValue : PyVal → Json
  | .vMulti vs => Json.arr (vs.map (fun v => Json.str (pyStr v)))
  | .vSeq items => Json.arr (items.map (fun d => Json.str (pyStrDataset d)))
  | .vBytes bs => Json.str (decodeIgnore bs)
  | .vFloat q => Json.num q
  | .vInt n => Json.intV n
  | .vStr s => Json.str s
  | .vOther s => Json.str (pyStr (.vOther s))

/-- The per-element loop of serialize_metadata (lines 75-90): for each
element, line 78 looks the tag up in the external fixed tag-to-VR
dictionary (pydicom.datadict.dictionary_VR), which raises KeyError for a
tag absent from that dictionary — the error case here; on success the
element becomes the envelope keyed by the 8-hex-digit tag, carrying the
VR and the rendered value. -/
def serializeEntries (vrOf : Nat → Option String) :
    List (Nat × String × PyVal) → Except String (List (String × Json))
  | [] => Except.ok []
  | (t, _, v) :: es => do
    let vr ← (match vrOf t with
      | some vr => Except.ok vr
      | none => Except.error ("KeyError: " ++ tagHex t))
    let tail ← serializeEntries vrOf es
    pure ((tagHex t, Json.obj [("vr", Json.str vr), ("Value", serializeValue v)]) :: tail)

/-- serialize_metadata (lines 70-92): the ordered dict of envelopes; it
raises exactly when some element's tag has no VR dictionary entry. -/
def serialize_metadata (vrOf : Nat → Option String) (d : Dataset) : Except String Json :=
  (serializeEntries vrOf d).map Json.obj

/-- A slice file as seen through pydicom.dcmread: either a decoded dataset
or a decode failure (a raised exception, modelled as the error case). -/
abbrev SliceFile : Type := Except String Dataset

/-- extract_metadata (lines 54-68): per slice file, decode, drop private
tags, serialize, and append; a decode failure or a serialization
KeyError propagates as the raised exception does. -/
def extract_metadata (vrOf : Nat → Option String) : List SliceFile → Except String (List Json)
  | [] => .ok []
  | f :: fs => do
    let ds ← f
    let md ← serialize_metadata vrOf (filterPrivate ds)
    let tail ← extract_metadata vrOf fs
    pure (md :: tail)

mutual

/-- Deep decidable equality of decoded values: the deep value equality
(not identity) that element comparison provides, recursing through
multi-values and through every child dataset of a sequence. -/
def PyVal.decEq : (a b : PyVal) → Decidable (a = b)
  | .vStr a, .vStr b =>
    if h : a = b then isTrue (congrArg PyVal.vStr h)
    else isFalse (fun hc => h (by injection hc))
  | .vInt a, .vInt b =>
    if h : a = b then isTrue (congrArg PyVal.vInt h)
    else isFalse (fun hc => h (by injection hc))
  | .vFloat a, .vFloat b =>
    if h : a = b then isTrue (congrArg PyVal.vFloat h)
    else isFalse (fun hc => h (by injection hc))
  | .vBytes a, .vBytes b =>
    if h : a = b then isTrue (congrArg PyVal.vBytes h)
    else isFalse (fun hc => h (by injection hc))
  | .vOther a, .vOther b =>
    if h : a = b then isTrue (congrArg PyVal.vOther h)
    else isFalse (fun hc => h (by injection hc))
  | .vMulti as1, .vMulti bs1 =>
    match PyVal.decEqList as1 bs1 with
    | isTrue h => isTrue (congrArg PyVal.vMulti h)
    | isFalse h => isFalse (fun hc => h (by injection hc))
  | .vSeq as1, .vSeq bs1 =>
    match PyVal.decEqItems as1 bs1 with
    | isTrue h => isTrue (congrArg PyVal.vSeq h)
    | isFalse h => isFalse (fun hc => h (by injection hc))
  | .vStr _, .vInt _ => isFalse (fun h => nomatch h)
  | .vStr _, .vFloat _ => isFalse (fun h => nomatch h)
  | .vStr _, .vBytes _ => isFalse (fun h => nomatch h)
  | .vStr _, .vMulti _ => isFalse (fun h => nomatch h)
  | .vStr _, .vSeq _ => isFalse (fun h => nomatch h)
  | .vStr _, .vOther _ => isFalse (fun h => nomatch h)
  | .vInt _, .vStr _ => isFalse (fun h => nomatch h)
  | .vInt _, .vFloat _ => isFalse (fun h => nomatch h)
  | .vInt _, .vBytes _ => isFalse (fun h => nomatch h)
  | .vInt _, .vMulti _ => isFalse (fun h => nomatch h)
  | .vInt _, .vSeq _ => isFalse (fun h => nomatch h)
  | .vInt _, .vOther _ => isFalse (fun h => nomatch h)
  | .vFloat _, .vStr _ => isFalse (fun h => nomatch h)
  | .vFloat _, .vInt _ => isFalse (fun h => nomatch h)
  | .vFloat _, .vBytes _ => isFalse (fun h => nomatch h)
  | .vFloat _, .vMulti _ => isFalse (fun h => nomatch h)
  | .vFloat _, .vSeq _ => isFalse (fun h => nomatch h)
  | .vFloat _, .vOther _ => isFalse (fun h => nomatch h)
  | .vBytes _, .vStr _ => isFalse (fun h => nomatch h)
  | .vBytes _, .vInt _ => isFalse (fun h => nomatch h)
  | .vBytes _, .vFloat _ => isFalse (fun h => nomatch h)
  | .vBytes _, .vMulti _ => isFalse (fun h => nomatch h)
  | .vBytes _, .vSeq _ => isFalse (fun h => nomatch h)
  | .vBytes _, .vOther _ => isFalse (fun h => nomatch h)
  | .vMulti _, .vStr _ => isFalse (fun h => nomatch h)
  | .vMulti _, .vInt _ => isFalse (fun h => nomatch h)
  | .vMulti _, .vFloat _ => isFalse (fun h => nomatch h)
  | .vMulti _, .vBytes _ => isFalse (fun h => nomatch h)
  | .vMulti _, .vSeq _ => isFalse (fun h => nomatch h)
  | .vMulti _, .vOther _ => isFalse (fun h => nomatch h)
  | .vSeq _, .vStr _ => isFalse (fun h => nomatch h)
  | .vSeq _, .vInt _ => isFalse (fun h => nomatch h)
  | .vSeq _, .vFloat _ => isFalse (fun h => nomatch h)
  | .vSeq _, .vBytes _ => isFalse (fun h => nomatch h)
  | .vSeq _, .vMulti _ => isFalse (fun h => nomatch h)
  | .vSeq _, .vOther _ => isFalse (fun h => nomatch h)
  | .vOther _, .vStr _ => isFalse (fun h => nomatch h)
  | .vOther _, .vInt _ => isFalse (fun h => nomatch h)
  | .vOther _, .vFloat _ => isFalse (fun h => nomatch h)
  | .vOther _, .vBytes _ => isFalse (fun h => nomatch h)
  | .vOther _, .vMulti _ => isFalse (fun h => nomatch h)
  | .vOther _, .vSeq _ => isFalse (fun h => nomatch h)
termination_by structural a => a

/-- Deep decidable equality of multi-value element lists. -/
def PyVal.decEqList : (a b : List PyVal) → Decidable (a = b)
  | [], [] => isTrue rfl
  | [], _ :: _ => isFalse (fun h => nomatch h)
  | _ :: _, [] => isFalse (fun h => nomatch h)
  | a :: as1, b :: bs1 =>
    match PyVal.decEq a b, PyVal.decEqList as1 bs1 with
    | isTrue h1, isTrue h2 => isTrue (by rw [h1, h2])
    | isFalse h1, _ => isFalse (fun hc => h1 (List.cons.inj hc).1)
    | _, isFalse h2 => isFalse (fun hc => h2 (List.cons.inj hc).2)

/-- Deep decidable equality of element lists (child datasets). -/
def PyVal.decEqEntries : (a b : List (Nat × String × PyVal)) → Decidable (a = b)
  | [], [] => isTrue rfl
  | [], _ :: _ => isFalse (fun h => nomatch h)
  | _ :: _, [] => isFalse (fun h => nomatch h)
  | (t1, n1, v1) :: xs, (t2, n2, v2) :: ys =>
    if ht : t1 = t2 then
      if hn : n1 = n2 then
        match PyVal.decEq v1 v2, PyVal.decEqEntries xs ys with
        | isTrue hv, isTrue hxs => isTrue (by rw [ht, hn, hv, hxs])
        | isFalse hv, _ =>
          isFalse (fun hc => hv (congrArg (fun p => p.2.2) (List.cons.inj hc).1))
        | _, isFalse hxs => isFalse (fun hc => hxs (List.cons.inj hc).2)
      else isFalse (fun hc => hn (congrArg (fun p => p.2.1) (List.cons.inj hc).1))
    else isFalse (fun hc => ht (congrArg (fun p => p.1) (List.cons.inj hc).1))

/-- Deep decidable equality of sequence item lists. -/
def PyVal.decEqItems : (a b : List (List (Nat × String × PyVal))) → Decidable (a = b)
  | [], [] => isTrue rfl
  | [], _ :: _ => isFalse (fun h => nomatch h)
  | _ :: _, [] => isFalse (fun h => nomatch h)
  | d :: ds, e :: es =>
    match PyVal.decEqEntries d e, PyVal.decEqItems ds es with
    | isTrue h1, isTrue h2 => isTrue (by rw [h1, h2])
    | isFalse h1, _ => isFalse (fun hc => h1 (List.cons.inj hc).1)
    | _, isFalse h2 => isFalse (fun hc => h2 (List.cons.inj hc).2)

end

instance : DecidableEq PyVal := PyVal.decEq

/-- Python dict lookup of a tag in a dataset: the first binding, returning
the name/value pair (dataset keys are unique in a decoded dataset). -/
def lookupD (t : Nat) : Dataset → Option (String × PyVal)
  | [] => none
  | (t2, nv) :: es => if t2 = t then some nv else lookupD t es

/-- Modelled from the spec: the Reconciliation Engine of section 4.1 is
absent from src (the script emits a flat per-slice list instead of a
common/unique split), so it is modelled from the design document.  The
first dictionary is the candidate baseline; a baseline entry whose tag is
bound to a deeply equal tagged value in every other slice is emitted into
common; then every slice emits the entries whose tag is not in common.
An empty series is a caller error, signalled by none. -/
def commonOf (base : Dataset) (rest : List Dataset) : Dataset :=
  base.filter (fun e => rest.all (fun d => decide (lookupD e.1 d = some e.2)))

/-- Modelled from the spec: after computing the common set, every slice
(the baseline included) emits exactly its entries whose tag is not a
common key. -/
def uniqueOf (common : Dataset) (d : Dataset) : Dataset :=
  d.filter (fun e => !((keys common).contains e.1))

def reconcile (series : List Dataset) : Option (Dataset × List Dataset) :=
  match series with
  | [] => none
  | base :: rest =>
    some (commonOf base rest, (base :: rest).map (fun d => uniqueOf (commonOf base rest) d))

/-- Modelled from the spec: parsing one rendered scalar back (section 8,
serializer round-trip): a JSON string is a textual scalar, JSON numbers
are numeric scalars of the matching kind. -/
def parseScalar : Json → Option PyVal
  | Json.str s => some (PyVal.vStr s)
  | Json.intV n => some (PyVal.vInt n)
  | Json.num q => some (PyVal.vFloat q)
  | _ => none

/-- Modelled from the spec: parsing a rendered list of scalars back. -/
def parseScalars : List Json → Option (List PyVal)
  | [] => some []
  | j :: js => do
    let v ← parseScalar j
    let vs ← parseScalars js
    pure (v :: vs)

/-- Modelled from the spec: parsing one rendered value back; a JSON list
is a multi-value whose elements are parsed scalars. -/
def parseValue : Json → Option PyVal
  | Json.arr xs => (parseScalars xs).map PyVal.vMulti
  | j => parseScalar j

/-- Modelled from the spec: parsing one rendered attribute envelope back:
read the vr field and parse the Value field. -/
def parseEnvelope : Json → Option (String × PyVal)
  | Json.obj [(k1, Json.str vr), (k2, v)] =>
    if k1 = "vr" ∧ k2 = "Value" then (parseValue v).map (fun pv => (vr, pv)) else none
  | _ => none

/-- Attribute access on the decoded first file (lines 121-123): the value
of the element with the given tag, when present and a string. -/
def getAttrStr (d : Dataset) (t : Nat) : Option String :=
  match lookupD t d with
  | some (_, PyVal.vStr s) => some s
  | _ => none

/-- The character filter of line 130: keep alphanumerics, the dash and
the underscore, replace everything else by an underscore. -/
def sanitizeChar (c : Char) : Char :=
  if c.isAlphanum || c = '-' || c = '_' then c else '_'

/-- generate_filename on the three header strings (lines 125-131):
replace every period of the series identifier by an underscore (the
single-character str.replace of line 126, modelled per character), join
the three fields with dashes, then apply the character filter. -/
def generate_filename_core (patient_id modality series_uid : String) : String :=
  let sanitized_series_uid := String.mk (series_uid.data.map (fun c => if c = '.' then '_' else c))
  let filename := patient_id ++ "-" ++ modality ++ "-" ++ sanitized_series_uid
  String.mk (filename.data.map sanitizeChar)

/-- generate_filename (lines 116-131): read PatientID (0010,0020),
Modality (0008,0060) and SeriesInstanceUID (0020,000E) from the first
decoded file, each falling back to its fixed placeholder when absent. -/
def generate_filename (example_file : Dataset) : String :=
  generate_filename_core
    ((getAttrStr example_file 0x00100020).getD "UNKNOWN_PATIENT")
    ((getAttrStr example_file 0x00080060).getD "UNKNOWN_MODALITY")
    ((getAttrStr example_file 0x0020000E).getD "UNKNOWN_SERIES")

/-- The observable actions of processing one series, in order: the
skip warning of line 37, the JSON document write of line 47 (path and
document), the conversion success log of line 112, the conversion
failure log of line 114, and the series failure log of line 52. -/
inductive Event : Type where
  | warnSkip : Event
  | jsonWritten : String → List Json → Event
  | infoConverted : String → Event
  | logConvError : String → Event
  | logSeriesError : String → Event

/-- One series as a unit of work, with the outcomes of its external
fallible steps supplied at the boundary: the per-file decodes, the JSON
file write, and the SimpleITK conversion. -/
structure SeriesInput where
  files : List SliceFile
  writeOutcome : Except String Unit
  convOutcome : Except String Unit

/-- convert_to_nifti (lines 101-114): the conversion outcome is caught
inside the function itself; it logs success or failure and never
raises. -/
def convert_to_nifti (conv : Except String Unit) (output_path : String) : List Event :=
  match conv with
  | Except.ok _ => [Event.infoConverted output_path]
  | Except.error e => [Event.logConvError e]

/-- The try-block body of process_series (lines 33-50): extract the
metadata, skip when empty, re-decode the first file for filename
generation, write the JSON document, then convert; the error case is the
exception the body raises. -/
def process_series_body (vrOf : Nat → Option String) (inp : SeriesInput) (nifti_folder : String) :
    Except String (List Event) := do
  let series_metadata ← extract_metadata vrOf inp.files
  if series_metadata.isEmpty then
    return [Event.warnSkip]
  let example_file ← (match inp.files with
    | [] => Except.error "IndexError"
    | f :: _ => f)
  let base_filename := generate_filename example_file
  let json_output_path := nifti_folder ++ "/" ++ base_filename ++ ".json"
  let nifti_output_path := nifti_folder ++ "/" ++ base_filename ++ ".nii.gz"
  let _ ← inp.writeOutcome
  return Event.jsonWritten json_output_path series_metadata
    :: convert_to_nifti inp.convOutcome nifti_output_path

/-- process_series (lines 29-52): the whole body runs under a catch-all
except clause that logs the error, so the function itself never raises. -/
def process_series (vrOf : Nat → Option String) (inp : SeriesInput) (nifti_folder : String) : List Event :=
  match process_series_body vrOf inp nifti_folder with
  | Except.ok evts => evts
  | Except.error e => [Event.logSeriesError e]

/-- The per-series dispatch of process_dicom_series (lines 19-27): every
discovered series is submitted and joined; each outcome is per series. -/
def process_dicom_series (vrOf : Nat → Option String) (inputs : List SeriesInput)
    (nifti_folder : String) : List (List Event) :=
  inputs.map (fun inp => process_series vrOf inp nifti_folder)

/-- A fixed total VR assignment for concrete examples: SH for code
values, SQ for everything else. -/
def gEx : Nat → String := fun t => if t = 0x00080100 then "SH" else "SQ"

/-- The example VR dictionary: every tag present, as gEx assigns. -/
def vrEx : Nat → Option String := fun t => some (gEx t)

/-- The envelope an element renders to when its VR lookup succeeds with
the VR assignment g: the successful-path rendering of lines 76-90. -/
def envelopeOf (g : Nat → String) (e : DataElem) : String × Json :=
  (tagHex e.1, Json.obj [("vr", Json.str (g e.1)), ("Value", serializeValue e.2.2)])

theorem serializeEntries_ok (vrOf : Nat → Option String) (g : Nat → String)
    (d : List (Nat × String × PyVal)) (h : ∀ e ∈ d, vrOf e.1 = some (g e.1)) :
    serializeEntries vrOf d = Except.ok (d.map (envelopeOf g)) := by
  induction d with
  | nil => rfl
  | cons e es ih =>
    obtain ⟨t, n, v⟩ := e
    have ht : vrOf t = some (g t) := h (t, n, v) (List.mem_cons_self _ _)
    have ih2 := ih (fun e2 he2 => h e2 (List.mem_cons_of_mem _ he2))
    have step : serializeEntries vrOf ((t, n, v) :: es) =
        (match vrOf t with
          | some vr => Except.ok vr
          | none => Except.error ("KeyError: " ++ tagHex t)).bind (fun vr =>
          (serializeEntries vrOf es).bind (fun tail => Except.ok
            ((tagHex t, Json.obj [("vr", Json.str vr), ("Value", serializeValue v)])
              :: tail))) := rfl
    rw [step, ht, ih2]
    rfl

theorem serialize_metadata_ok (vrOf : Nat → Option String) (g : Nat → String)
    (d : Dataset) (h : ∀ e ∈ d, vrOf e.1 = some (g e.1)) :
    serialize_metadata vrOf d = Except.ok (Json.obj (d.map (envelopeOf g))) := by
  rw [serialize_metadata, serializeEntries_ok vrOf g d h]
  rfl

theorem extract_metadata_ok (vrOf : Nat → Option String) (g : Nat → String)
    (dss : List Dataset)
    (h : ∀ ds ∈ dss, ∀ e ∈ filterPrivate ds, vrOf e.1 = some (g e.1)) :
    extract_metadata vrOf (dss.map Except.ok) =
      Except.ok (dss.map (fun ds => Json.obj ((filterPrivate ds).map (envelopeOf g)))) := by
  induction dss with
  | nil => rfl
  | cons d rest ih =>
    have hd := h d (List.mem_cons_self _ _)
    have ih2 := ih (fun ds hds => h ds (List.mem_cons_of_mem _ hds))
    have step : extract_metadata vrOf ((d :: rest).map Except.ok) =
        (serialize_metadata vrOf (filterPrivate d)).bind (fun md =>
          (extract_metadata vrOf (rest.map Except.ok)).bind
            (fun tail => Except.ok (md :: tail))) := rfl
    rw [step, serialize_metadata_ok vrOf g _ hd, ih2]
    rfl

theorem hexCharsAux_length_le (fuel : Nat) : ∀ (n k : Nat) (acc : List Char), n < 16 ^ k →
    (hexCharsAux fuel n acc).length ≤ k + acc.length := by
  induction fuel with
  | zero => intro n k acc _; simp [hexCharsAux]
  | succ fuel ih =>
    intro n k acc hn
    match n with
    | 0 => simp [hexCharsAux]
    | m + 1 =>
      have hk1 : 1 ≤ k := by
        by_contra hc
        have hk0 : k = 0 := by omega
        rw [hk0] at hn
        simp at hn
      have h16 : (16 : Nat) ^ k = 16 ^ (k - 1) * 16 := by
        conv_lhs => rw [show k = (k - 1) + 1 by omega]
        rw [pow_succ]
      have hdiv : (m + 1) / 16 < 16 ^ (k - 1) := by
        apply Nat.div_lt_of_lt_mul
        rw [Nat.mul_comm, ← h16]
        exact hn
      have hrec := ih ((m + 1) / 16) (k - 1) (hexDigit ((m + 1) % 16) :: acc) hdiv
      rw [hexCharsAux]
      simp only [List.length_cons] at hrec
      omega

theorem tagHex_length_eight {t : Nat} (ht : t < 4294967296) : (tagHex t).length = 8 := by
  have hlen : (if t = 0 then ['0'] else hexCharsAux t t []).length ≤ 8 := by
    by_cases h0 : t = 0
    · simp [h0]
    · simp only [h0, if_false]
      have hb : t < 16 ^ 8 := by norm_num; omega
      have := hexCharsAux_length_le t t 8 [] hb
      simpa using this
  rw [tagHex]
  show (List.replicate _ '0' ++ _).length = 8
  rw [List.length_append, List.length_replicate]
  omega

theorem lookupD_mem {t : Nat} {nv : String × PyVal} :
    ∀ {d : Dataset}, lookupD t d = some nv → (t, nv) ∈ d := by
  intro d
  induction d with
  | nil => intro h; exact absurd h (by simp [lookupD])
  | cons e es ih =>
    obtain ⟨t2, nv2⟩ := e
    intro h
    by_cases ht : t2 = t
    · subst ht
      simp only [lookupD, if_pos rfl] at h
      obtain rfl : nv2 = nv := Option.some.inj h
      exact List.mem_cons_self _ _
    · simp only [lookupD, if_neg ht] at h
      exact List.mem_cons_of_mem _ (ih h)

theorem mem_keys {t : Nat} {d : Dataset} : t ∈ keys d ↔ ∃ nv, (t, nv) ∈ d := by
  simp only [keys, List.mem_map]
  constructor
  · rintro ⟨e, he, rfl⟩
    exact ⟨e.2, by simpa using he⟩
  · rintro ⟨nv, h⟩
    exact ⟨(t, nv), h, rfl⟩

theorem mem_lookupD {t : Nat} {nv : String × PyVal} :
    ∀ {d : Dataset}, (keys d).Nodup → (t, nv) ∈ d → lookupD t d = some nv := by
  intro d
  induction d with
  | nil => intro _ h; simp at h
  | cons e es ih =>
    obtain ⟨t2, nv2⟩ := e
    intro hnd hm
    simp only [keys, List.map_cons] at hnd
    have hni : t2 ∉ List.map (fun e => e.1) es := (List.nodup_cons.mp hnd).1
    have hnd3 : (keys es).Nodup := (List.nodup_cons.mp hnd).2
    rcases List.mem_cons.mp hm with heq | htail
    · have h1 : t = t2 := congrArg Prod.fst heq
      have h2 : nv = nv2 := congrArg (fun p => p.2) heq
      subst h1
      simp only [lookupD, if_pos rfl]
      exact congrArg some h2.symm
    · by_cases ht : t2 = t
      · exfalso
        subst ht
        exact hni (List.mem_map.mpr ⟨(t2, nv), htail, rfl⟩)
      · simp only [lookupD, if_neg ht]
        exact ih hnd3 htail

theorem filterPrivate_keys_nodup {d : Dataset} (h : (keys d).Nodup) :
    (keys (filterPrivate d)).Nodup := by
  simp only [keys] at h ⊢
  exact List.Nodup.sublist ((List.filter_sublist d).map (fun e => e.1)) h

/-- C2: on slices whose tags all have VR dictionary entries,
extract_metadata returns the flat ordered list of per-slice serialized
dictionaries — exactly one per decoded input slice, in input order, with
no common/unique split. -/
theorem extract_metadata_flat_per_slice (vrOf : Nat → Option String) (g : Nat → String)
    (dss : List Dataset)
    (h : ∀ ds ∈ dss, ∀ e ∈ filterPrivate ds, vrOf e.1 = some (g e.1)) :
    extract_metadata vrOf (dss.map Except.ok) =
      Except.ok (dss.map (fun ds => Json.obj ((filterPrivate ds).map (envelopeOf g)))) ∧
    (dss.map (fun ds => Json.obj ((filterPrivate ds).map (envelopeOf g)))).length = dss.length ∧
    ∀ i (hi : i < dss.length),
      (dss.map (fun ds => Json.obj ((filterPrivate ds).map (envelopeOf g)))).get
          ⟨i, by simpa using hi⟩ =
        Json.obj ((filterPrivate (dss.get ⟨i, hi⟩)).map (envelopeOf g)) := by
  refine ⟨extract_metadata_ok vrOf g dss h, by simp, ?_⟩
  intro i hi
  simp

/-- A concrete two-slice series used by witnesses. -/
def dssW : List Dataset :=
  [[(0x00080100, "Code Value", PyVal.vStr "A")],
   [(0x00080100, "Code Value", PyVal.vStr "B")]]

/-- Witness for C2 at a concrete two-slice series. -/
theorem extract_metadata_flat_per_slice_witness :
    (∀ ds ∈ dssW, ∀ e ∈ filterPrivate ds, vrEx e.1 = some (gEx e.1)) ∧
    extract_metadata vrEx (dssW.map Except.ok) =
      Except.ok (dssW.map (fun ds => Json.obj ((filterPrivate ds).map (envelopeOf gEx)))) ∧
    (0 : Nat) < dssW.length ∧
    (dssW.map (fun ds => Json.obj ((filterPrivate ds).map (envelopeOf gEx)))).get
        ⟨0, by decide⟩ =
      Json.obj ((filterPrivate (dssW.get ⟨0, by decide⟩)).map (envelopeOf gEx)) :=
  ⟨by decide, (extract_metadata_flat_per_slice vrEx gEx dssW (by decide)).1, by decide,
    (extract_metadata_flat_per_slice vrEx gEx dssW (by decide)).2.2 0 (by decide)⟩

/-- C3 (code-bug evidence): pydicom Sequence subclasses MultiValue, so a
Sequence value satisfies the isinstance test of line 81 and a nested
group renders as the ordered list of the str() texts of its item
datasets — JSON strings, never the recursively serialized objects that
the unreachable branch of lines 83-84 (and the design document)
prescribe.  Shown at a concrete one-item nested group, in general, and
with the structural divergence (a string is never an object). -/
theorem nested_group_rendered_as_text :
    serializeValue (PyVal.vSeq [[(0x00080100, "Code Value", PyVal.vStr "T-D1213")]]) =
      Json.arr [Json.str (pyStrDataset [(0x00080100, "Code Value", PyVal.vStr "T-D1213")])] ∧
    (∀ items, serializeValue (PyVal.vSeq items) =
      Json.arr (items.map (fun d => Json.str (pyStrDataset d)))) ∧
    (∀ (s : String) (kvs : List (String × Json)), Json.str s ≠ Json.obj kvs) :=
  ⟨rfl, fun _ => rfl, fun _ _ h => Json.noConfusion h⟩

/-- C6 (amended): on a dataset all of whose tags have VR dictionary
entries the serializer never raises — it yields an object with exactly
one rendered entry per element — and a value of an unrecognized type
renders through the generic textual str() fallback rather than failing;
the VR lookup of line 78, however, raises KeyError for a tag absent from
the dictionary (see the counterexample). -/
theorem serializer_total_with_fallback (vrOf : Nat → Option String) (g : Nat → String)
    (d : Dataset) (h : ∀ e ∈ d, vrOf e.1 = some (g e.1)) :
    (∃ kvs, serialize_metadata vrOf d = Except.ok (Json.obj kvs) ∧ kvs.length = d.length) ∧
    (∀ s, serializeValue (PyVal.vOther s) = Json.str (pyStr (PyVal.vOther s))) := by
  refine ⟨⟨d.map (envelopeOf g), serialize_metadata_ok vrOf g d h, by simp⟩, fun s => rfl⟩

/-- A dataset holding a textual scalar and an unclassifiable value. -/
def fallbackW : Dataset :=
  [(0x00080100, "Code Value", PyVal.vStr "T-D1213"),
   (0x7FE00010, "Pixel Data Stub", PyVal.vOther "object tail")]

/-- Witness for the amended C6 at a concrete dataset with a fallback
value. -/
theorem serializer_total_with_fallback_witness :
    (∀ e ∈ fallbackW, vrEx e.1 = some (gEx e.1)) ∧
    ((∃ kvs, serialize_metadata vrEx fallbackW = Except.ok (Json.obj kvs) ∧
        kvs.length = fallbackW.length) ∧
     (∀ s, serializeValue (PyVal.vOther s) = Json.str (pyStr (PyVal.vOther s)))) :=
  ⟨by decide, serializer_total_with_fallback vrEx gEx fallbackW (by decide)⟩

/-- A VR dictionary that only knows the code-value tag, as the real DICOM
dictionary lacks unassigned tags. -/
def vrPart : Nat → Option String := fun t => if t = 0x00080100 then some "SH" else none

/-- Counterexample to C6 as stated: on a well-formed dictionary binding
the non-private tag (0008,0009), absent from the VR dictionary, the
lookup of line 78 raises KeyError, so serialize_metadata raises rather
than degrading to a textual fallback. -/
theorem serializer_raises_counterexample :
    isPrivate 0x00080009 = false ∧
    vrPart 0x00080009 = none ∧
    serialize_metadata vrPart [(0x00080009, "Unknown Tag", PyVal.vStr "x")] =
      Except.error ("KeyError: " ++ tagHex 0x00080009) :=
  ⟨by decide, rfl, rfl⟩

theorem reconcile_cons (base : Dataset) (rest : List Dataset) :
    reconcile (base :: rest) =
      some (commonOf base rest,
        (base :: rest).map (fun d => uniqueOf (commonOf base rest) d)) := rfl

theorem mem_commonOf {base : Dataset} {rest : List Dataset} {t : Nat} {nv : String × PyVal} :
    (t, nv) ∈ commonOf base rest ↔ (t, nv) ∈ base ∧ ∀ d ∈ rest, lookupD t d = some nv := by
  simp [commonOf, List.mem_filter]

theorem mem_uniqueOf {common d : Dataset} {e : DataElem} :
    e ∈ uniqueOf common d ↔ e ∈ d ∧ e.1 ∉ keys common := by
  simp [uniqueOf, List.mem_filter]

/-- C1 (spec-modelled reconcile): on every non-empty series of decoded
dictionaries (tags unique within each slice), the reconcile partition is
correct: a tagged value is in common exactly when every private-filtered
slice binds its tag to that deeply equal value; unique has one entry per
slice in input order, containing exactly the private-filtered entries of
that slice whose tags are not common; common and each unique slice are
disjoint and jointly exhaust the private-filtered slice keys. -/
theorem reconcile_partition_correct (orig : List Dataset) (hne : orig ≠ [])
    (hnd : ∀ d ∈ orig, (keys d).Nodup) :
    ∃ common unique,
      reconcile (orig.map filterPrivate) = some (common, unique) ∧
      (∀ t nv, (t, nv) ∈ common ↔ ∀ d ∈ orig, lookupD t (filterPrivate d) = some nv) ∧
      unique.length = orig.length ∧
      (∀ i (hi : i < orig.length) (hi2 : i < unique.length) (e : DataElem),
        e ∈ unique[i] ↔ e ∈ filterPrivate orig[i] ∧ e.1 ∉ keys common) ∧
      (∀ i (hi2 : i < unique.length) (t : Nat), ¬(t ∈ keys common ∧ t ∈ keys unique[i])) ∧
      (∀ i (hi : i < orig.length) (hi2 : i < unique.length) (t : Nat),
        t ∈ keys (filterPrivate orig[i]) ↔ t ∈ keys common ∨ t ∈ keys unique[i]) := by
  obtain ⟨base, rest, rfl⟩ : ∃ b r, orig = b :: r := by
    cases orig with
    | nil => exact absurd rfl hne
    | cons b r => exact ⟨b, r, rfl⟩
  have hcomm : ∀ t nv,
      (t, nv) ∈ commonOf (filterPrivate base) (rest.map filterPrivate) ↔
        ∀ d ∈ base :: rest, lookupD t (filterPrivate d) = some nv := by
    intro t nv
    rw [mem_commonOf]
    constructor
    · rintro ⟨hb, hall⟩ d hd
      rcases List.mem_cons.mp hd with rfl | hdr
      · exact mem_lookupD (filterPrivate_keys_nodup (hnd d (List.mem_cons_self _ _))) hb
      · exact hall _ (List.mem_map_of_mem _ hdr)
    · intro h
      refine ⟨lookupD_mem (h base (List.mem_cons_self _ _)), ?_⟩
      intro d hd
      obtain ⟨d0, hd0, rfl⟩ := List.mem_map.mp hd
      exact h d0 (List.mem_cons_of_mem _ hd0)
  refine ⟨commonOf (filterPrivate base) (rest.map filterPrivate),
    ((base :: rest).map filterPrivate).map
      (fun d => uniqueOf (commonOf (filterPrivate base) (rest.map filterPrivate)) d),
    ?_, hcomm, by simp, ?_, ?_, ?_⟩
  · rw [List.map_cons, reconcile_cons, List.map_cons]
  · intro i hi hi2 e
    simp only [List.getElem_map, mem_uniqueOf]
  · intro i hi2 t hct
    obtain ⟨htc, htu⟩ := hct
    obtain ⟨nv, hmem⟩ := mem_keys.mp htu
    rw [List.getElem_map] at hmem
    rw [List.getElem_map] at hmem
    exact (mem_uniqueOf.mp hmem).2 htc
  · intro i hi hi2 t
    constructor
    · intro ht
      by_cases htc : t ∈ keys (commonOf (filterPrivate base) (rest.map filterPrivate))
      · exact Or.inl htc
      · right
        obtain ⟨nv, hmem⟩ := mem_keys.mp ht
        refine mem_keys.mpr ⟨nv, ?_⟩
        rw [List.getElem_map, List.getElem_map]
        exact mem_uniqueOf.mpr ⟨hmem, htc⟩
    · rintro (htc | htu)
      · obtain ⟨nv, hcm⟩ := mem_keys.mp htc
        have hl := (hcomm t nv).mp hcm ((base :: rest).get ⟨i, hi⟩) (List.get_mem _ _ hi)
        exact mem_keys.mpr ⟨nv, lookupD_mem hl⟩
      · obtain ⟨nv, hmem⟩ := mem_keys.mp htu
        rw [List.getElem_map, List.getElem_map] at hmem
        exact mem_keys.mpr ⟨nv, (mem_uniqueOf.mp hmem).1⟩

/-- The three-slice scenario series: shared PatientName, per-slice
InstanceNumber. -/
def seriesW : List Dataset :=
  [[(0x00100010, "Patient Name", PyVal.vStr "JOHN^DOE"),
    (0x00200013, "Instance Number", PyVal.vInt 1)],
   [(0x00100010, "Patient Name", PyVal.vStr "JOHN^DOE"),
    (0x00200013, "Instance Number", PyVal.vInt 2)],
   [(0x00100010, "Patient Name", PyVal.vStr "JOHN^DOE"),
    (0x00200013, "Instance Number", PyVal.vInt 3)]]

/-- Witness for C1 at the three-slice scenario series. -/
theorem reconcile_partition_correct_witness :
    (seriesW ≠ [] ∧ ∀ d ∈ seriesW, (keys d).Nodup) ∧
    (∃ common unique,
      reconcile (seriesW.map filterPrivate) = some (common, unique) ∧
      (∀ t nv, (t, nv) ∈ common ↔ ∀ d ∈ seriesW, lookupD t (filterPrivate d) = some nv) ∧
      unique.length = seriesW.length ∧
      (∀ i (hi : i < seriesW.length) (hi2 : i < unique.length) (e : DataElem),
        e ∈ unique[i] ↔ e ∈ filterPrivate seriesW[i] ∧ e.1 ∉ keys common) ∧
      (∀ i (hi2 : i < unique.length) (t : Nat), ¬(t ∈ keys common ∧ t ∈ keys unique[i])) ∧
      (∀ i (hi : i < seriesW.length) (hi2 : i < unique.length) (t : Nat),
        t ∈ keys (filterPrivate seriesW[i]) ↔ t ∈ keys common ∨ t ∈ keys unique[i])) :=
  ⟨⟨by decide, by decide⟩, reconcile_partition_correct seriesW (by decide) (by decide)⟩

/-- A textual scalar. -/
def isTextScalar : PyVal → Bool
  | .vStr _ => true
  | _ => false

/-- Payloads on which the serialize/parse round trip is lossless: scalar
values, and multi-values all of whose elements are textual scalars. -/
def scalarOrTextMulti : PyVal → Bool
  | .vStr _ => true
  | .vInt _ => true
  | .vFloat _ => true
  | .vMulti vs => vs.all isTextScalar
  | _ => false

theorem parseScalars_text {vs : List PyVal} (h : ∀ v ∈ vs, isTextScalar v = true) :
    parseScalars (vs.map (fun v => Json.str (pyStr v))) = some vs := by
  induction vs with
  | nil => rfl
  | cons v vs ih =>
    have hv := h v (List.mem_cons_self _ _)
    obtain ⟨s, rfl⟩ : ∃ s, v = PyVal.vStr s := by
      cases v with
      | vStr s => exact ⟨s, rfl⟩
      | vInt n => exact absurd hv (by simp [isTextScalar])
      | vFloat q => exact absurd hv (by simp [isTextScalar])
      | vBytes bs => exact absurd hv (by simp [isTextScalar])
      | vMulti vs2 => exact absurd hv (by simp [isTextScalar])
      | vSeq items => exact absurd hv (by simp [isTextScalar])
      | vOther s => exact absurd hv (by simp [isTextScalar])
    have ih2 := ih (fun v hv2 => h v (List.mem_cons_of_mem _ hv2))
    simp only [List.map_cons, parseScalars, parseScalar]
    rw [ih2]
    simp [pyStr]

theorem parse_serialize_scalar {v : PyVal}
    (h : scalarOrTextMulti v = true) :
    parseValue (serializeValue v) = some v := by
  cases v with
  | vStr s => rfl
  | vInt n => rfl
  | vFloat q => rfl
  | vBytes bs => exact absurd h (by simp [scalarOrTextMulti])
  | vMulti vs =>
    have hall : ∀ v ∈ vs, isTextScalar v = true := by
      simpa [scalarOrTextMulti, List.all_eq_true] using h
    simp [serializeValue, parseValue, parseScalars_text hall]
  | vSeq items => exact absurd h (by simp [scalarOrTextMulti])
  | vOther s => exact absurd h (by simp [scalarOrTextMulti])

/-- C4 (amended): serializing then parsing recovers the original VR code
for every attribute, and the original value for every attribute whose
payload is a scalar or a multi-value of textual scalars; a numeric
multi-value element, by contrast, is rendered through str() (see the
counterexample). -/
theorem serialize_parse_roundtrip_scalars (vrOf : Nat → Option String) (g : Nat → String)
    (d : Dataset) (hvr : ∀ e ∈ d, vrOf e.1 = some (g e.1))
    (h : ∀ e ∈ d, scalarOrTextMulti e.2.2 = true) :
    serializeEntries vrOf d = Except.ok (d.map (envelopeOf g)) ∧
    ∀ e ∈ d, parseEnvelope
        (Json.obj [("vr", Json.str (g e.1)), ("Value", serializeValue e.2.2)]) =
      some (g e.1, e.2.2) := by
  refine ⟨serializeEntries_ok vrOf g d hvr, ?_⟩
  intro e he
  simp [parseEnvelope, parse_serialize_scalar (h e he)]

/-- A concrete dataset of scalar and textual multi-value attributes. -/
def roundW : Dataset :=
  [(0x00100010, "Patient Name", PyVal.vStr "JOHN^DOE"),
   (0x00200013, "Instance Number", PyVal.vInt 7),
   (0x00181151, "X-Ray Tube Current", PyVal.vFloat (3 / 2)),
   (0x00280030, "Pixel Spacing", PyVal.vMulti [PyVal.vStr "0.5", PyVal.vStr "0.5"])]

/-- Witness for the amended C4 at a concrete dataset. -/
theorem serialize_parse_roundtrip_scalars_witness :
    ((∀ e ∈ roundW, vrEx e.1 = some (gEx e.1)) ∧
     (∀ e ∈ roundW, scalarOrTextMulti e.2.2 = true)) ∧
    (serializeEntries vrEx roundW = Except.ok (roundW.map (envelopeOf gEx)) ∧
    ∀ e ∈ roundW, parseEnvelope
        (Json.obj [("vr", Json.str (gEx e.1)), ("Value", serializeValue e.2.2)]) =
      some (gEx e.1, e.2.2)) :=
  ⟨⟨by decide, by decide⟩,
   serialize_parse_roundtrip_scalars vrEx gEx roundW (by decide) (by decide)⟩

/-- Counterexample to C4 as stated: a multi-value with the numeric
element 1 renders as the list of decimal strings, so parsing recovers
the string one, not the integer one — the original element value is not
recovered. -/
theorem serialize_roundtrip_counterexample :
    serializeValue (PyVal.vMulti [PyVal.vInt 1]) = Json.arr [Json.str "1"] ∧
    parseValue (Json.arr [Json.str "1"]) = some (PyVal.vMulti [PyVal.vStr "1"]) ∧
    PyVal.vMulti [PyVal.vStr "1"] ≠ PyVal.vMulti [PyVal.vInt 1] :=
  ⟨rfl, rfl, by decide⟩

theorem utf8Decode_cons_ascii (r : Bool) (b : Nat) (l : List Nat) (hb : b ≤ 127) :
    utf8Decode r (b :: l) = Char.ofNat b :: utf8Decode r l := by
  match l with
  | [] => simp [utf8Decode, hb]
  | [x] => simp [utf8Decode, hb]
  | [x, y] => simp [utf8Decode, hb]
  | [x, y, z] => simp [utf8Decode, hb]
  | x :: y :: z :: w :: tail => simp [utf8Decode, hb]

theorem utf8Decode_ascii_append (r : Bool) : ∀ (bs rest : List Nat), (∀ b ∈ bs, b ≤ 127) →
    utf8Decode r (bs ++ rest) = bs.map Char.ofNat ++ utf8Decode r rest := by
  intro bs
  induction bs with
  | nil => intro rest _; simp
  | cons b bs ih =>
    intro rest h
    have hb : b ≤ 127 := h b (List.mem_cons_self _ _)
    rw [List.cons_append, utf8Decode_cons_ascii r b (bs ++ rest) hb,
      ih rest (fun x hx => h x (List.mem_cons_of_mem _ hx))]
    rfl

/-- C5 (amended): a Binary payload renders as best-effort decoded text
that never fails: ASCII bytes decode to themselves, while an undecodable
byte sequence is dropped (errors equal to ignore), not replaced by a
substitute marker. -/
theorem binary_decode_total_amended (bs : List Nat)
    (h : ∀ b ∈ bs, b ≤ 127) :
    serializeValue (PyVal.vBytes bs) = Json.str (decodeIgnore bs) ∧
    decodeIgnore bs = String.mk (bs.map Char.ofNat) ∧
    decodeIgnore (bs ++ [255]) = String.mk (bs.map Char.ofNat) := by
  have hnil : utf8Decode false ([] : List Nat) = [] := rfl
  have h1 : utf8Decode false bs = bs.map Char.ofNat := by
    have := utf8Decode_ascii_append false bs [] h
    simpa [hnil] using this
  refine ⟨rfl, ?_, ?_⟩
  · show String.mk (utf8Decode false bs) = _
    rw [h1]
  · show String.mk (utf8Decode false (bs ++ [255])) = _
    rw [utf8Decode_ascii_append false bs [255] h]
    have h255 : utf8Decode false [255] = [] := rfl
    simp [h255]

/-- Witness for the amended C5 on a concrete ASCII byte string. -/
theorem binary_decode_total_amended_witness :
    (∀ b ∈ [104, 105], b ≤ 127) ∧
    (serializeValue (PyVal.vBytes [104, 105]) = Json.str (decodeIgnore [104, 105]) ∧
    decodeIgnore [104, 105] = String.mk ([104, 105].map Char.ofNat) ∧
    decodeIgnore ([104, 105] ++ [255]) = String.mk ([104, 105].map Char.ofNat)) :=
  ⟨by decide, binary_decode_total_amended [104, 105] (by decide)⟩

/-- Counterexample to C5 as stated: on the lone undecodable byte 255 the
source decode (errors equal to ignore) yields the empty text — the byte
is dropped, not replaced by the substitute marker the claim requires. -/
theorem binary_decode_counterexample :
    decodeIgnore [255] = String.mk [] ∧
    decodeReplace [255] = String.mk [Char.ofNat 65533] ∧
    String.mk ([] : List Char) ≠ String.mk [Char.ofNat 65533] ∧
    serializeValue (PyVal.vBytes [255]) = Json.str (decodeIgnore [255]) :=
  ⟨rfl, rfl, by decide, rfl⟩

/-- C8: filename generation — kept characters are exactly alphanumerics,
dash and underscore, everything else becomes an underscore; the output is
the dash-joined triple with the series identifier period-mapped first;
the placeholders stand in for absent attributes; and the scenario input
yields the expected base name. -/
theorem generate_filename_contract :
    (∀ c : Char, c.isAlphanum = true ∨ c = '-' ∨ c = '_' → sanitizeChar c = c) ∧
    (∀ c : Char, ¬(c.isAlphanum = true ∨ c = '-' ∨ c = '_') → sanitizeChar c = '_') ∧
    (∀ p m s, (generate_filename_core p m s).data =
      (p ++ "-" ++ m ++ "-" ++
        String.mk (s.data.map (fun c => if c = '.' then '_' else c))).data.map sanitizeChar) ∧
    generate_filename_core "A B" "CT" "1.2.840.10008" = "A_B-CT-1_2_840_10008" ∧
    generate_filename [] =
      generate_filename_core "UNKNOWN_PATIENT" "UNKNOWN_MODALITY" "UNKNOWN_SERIES" := by
  refine ⟨?_, ?_, fun p m s => rfl, by decide, rfl⟩
  · intro c hc
    rcases hc with h | h | h
    · simp [sanitizeChar, h]
    · simp [sanitizeChar, h]
    · simp [sanitizeChar, h]
  · intro c hc
    push_neg at hc
    simp [sanitizeChar, hc.1, hc.2.1, hc.2.2]

/-- Witness for C8: the character filter applied at concrete kept and
replaced characters. -/
theorem generate_filename_contract_witness :
    sanitizeChar 'A' = 'A' ∧ sanitizeChar ' ' = '_' :=
  ⟨generate_filename_contract.1 'A' (Or.inl (by decide)),
   generate_filename_contract.2.1 ' ' (by decide)⟩

/-- C9: any error raised by the body of series processing is caught at
the process_series boundary and becomes a logged outcome — the function
returns events, never an exception — and the batch maps every series to
its own outcome, each independent of its siblings, so the run always
completes with one outcome per series. -/
theorem process_series_error_containment :
    (∀ (vrOf : Nat → Option String) (inp : SeriesInput) (folder e : String),
        process_series_body vrOf inp folder = Except.error e →
        process_series vrOf inp folder = [Event.logSeriesError e]) ∧
    (∀ (vrOf : Nat → Option String) (inp : SeriesInput) (folder : String) (evts : List Event),
        process_series_body vrOf inp folder = Except.ok evts →
        process_series vrOf inp folder = evts) ∧
    (∀ (vrOf : Nat → Option String) (inputs : List SeriesInput) (folder : String),
        (process_dicom_series vrOf inputs folder).length = inputs.length) ∧
    (∀ (vrOf : Nat → Option String) (inputs : List SeriesInput) (folder : String) (i : Nat)
        (hi : i < inputs.length) (hi2 : i < (process_dicom_series vrOf inputs folder).length),
        (process_dicom_series vrOf inputs folder)[i] = process_series vrOf inputs[i] folder) := by
  refine ⟨?_, ?_, ?_, ?_⟩
  · intro vrOf inp folder e h
    simp [process_series, h]
  · intro vrOf inp folder evts h
    simp [process_series, h]
  · intro vrOf inputs folder
    simp [process_dicom_series]
  · intro vrOf inputs folder i hi hi2
    simp [process_dicom_series]

/-- A series whose only slice fails to decode. -/
def inpBad : SeriesInput :=
  ⟨[Except.error "bad slice"], Except.ok (), Except.ok ()⟩

/-- A series whose slice decodes and whose writes succeed. -/
def inpOk : SeriesInput :=
  ⟨[Except.ok [(0x00100020, "Patient ID", PyVal.vStr "P1")]], Except.ok (), Except.ok ()⟩

/-- Witness for C9: a decode failure is logged, not raised, and the
sibling series of the batch is still processed. -/
theorem process_series_error_containment_witness :
    process_series_body vrEx inpBad "nifti" = Except.error "bad slice" ∧
    process_series vrEx inpBad "nifti" = [Event.logSeriesError "bad slice"] ∧
    (process_dicom_series vrEx [inpBad, inpOk] "nifti").length = 2 ∧
    (process_dicom_series vrEx [inpBad, inpOk] "nifti").get ⟨1, by decide⟩ =
      process_series vrEx inpOk "nifti" :=
  ⟨rfl,
   process_series_error_containment.1 vrEx inpBad "nifti" "bad slice" rfl,
   process_series_error_containment.2.2.1 vrEx [inpBad, inpOk] "nifti",
   process_series_error_containment.2.2.2 vrEx [inpBad, inpOk] "nifti" 1 (by decide) (by decide)⟩

/-- C10: when extraction and the JSON write succeed, the JSON document
event precedes the conversion attempt in the series trace, and a failed
conversion — caught inside convert_to_nifti, which only logs — leaves
the already-written JSON document in place: the trace still opens with
the write. -/
theorem json_written_before_conversion (vrOf : Nat → Option String) (g : Nat → String)
    (folder : String) (inp : SeriesInput) (d : Dataset) (tl : List Dataset) (e : String)
    (hvr : ∀ ds ∈ d :: tl, ∀ e2 ∈ filterPrivate ds, vrOf e2.1 = some (g e2.1))
    (hf : inp.files = (d :: tl).map Except.ok)
    (hw : inp.writeOutcome = Except.ok ())
    (hc : inp.convOutcome = Except.error e) :
    (∀ p, convert_to_nifti (Except.error e) p = [Event.logConvError e]) ∧
    process_series vrOf inp folder =
      [Event.jsonWritten (folder ++ "/" ++ generate_filename d ++ ".json")
        ((d :: tl).map (fun ds => Json.obj ((filterPrivate ds).map (envelopeOf g)))),
       Event.logConvError e] := by
  refine ⟨fun p => rfl, ?_⟩
  have hbody : process_series_body vrOf inp folder =
      Except.ok [Event.jsonWritten (folder ++ "/" ++ generate_filename d ++ ".json")
        ((d :: tl).map (fun ds => Json.obj ((filterPrivate ds).map (envelopeOf g)))),
       Event.logConvError e] := by
    simp only [process_series_body, hf]
    rw [extract_metadata_ok vrOf g (d :: tl) hvr]
    simp only [hw, hc, convert_to_nifti]
    rfl
  simp [process_series, hbody]

/-- A decoded slice carrying the three filename attributes. -/
def dW : Dataset :=
  [(0x00100020, "Patient ID", PyVal.vStr "P1"),
   (0x00080060, "Modality", PyVal.vStr "CT"),
   (0x0020000E, "Series Instance UID", PyVal.vStr "1.2.3")]

/-- A series that decodes and writes fine but whose conversion fails. -/
def inpConv : SeriesInput :=
  ⟨[Except.ok dW], Except.ok (), Except.error "inconsistent geometry"⟩

/-- Witness for C10 at a series with a failing conversion. -/
theorem json_written_before_conversion_witness :
    ((∀ ds ∈ ([dW] : List Dataset), ∀ e2 ∈ filterPrivate ds, vrEx e2.1 = some (gEx e2.1)) ∧
     inpConv.files = ([dW] : List Dataset).map Except.ok ∧
     inpConv.writeOutcome = Except.ok () ∧
     inpConv.convOutcome = Except.error "inconsistent geometry") ∧
    ((∀ p, convert_to_nifti (Except.error "inconsistent geometry") p =
        [Event.logConvError "inconsistent geometry"]) ∧
    process_series vrEx inpConv "nifti" =
      [Event.jsonWritten ("nifti" ++ "/" ++ generate_filename dW ++ ".json")
        (([dW] : List Dataset).map (fun ds => Json.obj ((filterPrivate ds).map (envelopeOf gEx)))),
       Event.logConvError "inconsistent geometry"]) :=
  ⟨⟨by decide, rfl, rfl, rfl⟩,
   json_written_before_conversion vrEx gEx "nifti" inpConv dW [] "inconsistent geometry"
     (by decide) rfl rfl rfl⟩

end NiftiCuration
